import Mathlib

/-!
Verification of the invoice PDF extraction pipeline (pdf_extractor.py).

The Python source is shallowly embedded: strings are Lean strings (lists
of characters), Python floats are modelled by exact rationals, regular
expressions used by the code are translated into explicit character-list
matchers, and dictionaries with a fixed key set are modelled either as
association lists or as Lean structures.
-/

namespace PdfExtract

/-! ## Character classes

Models of the character sets used by the Python code.  Python whitespace
is modelled by its ASCII members plus NEL and the non-breaking space;
the source documents are ASCII apart from the non-breaking space, which
the normalizer removes explicitly.
-/

/-- Horizontal whitespace, the class `[ \t]` used by the normalizer. -/
def isHT (c : Char) : Bool := c == ' ' || c == '\t'

/-- Python whitespace (the class `\s` and the default `str.strip` set). -/
def isPyWS (c : Char) : Bool :=
  c == ' ' || c == '\t' || c == '\n' || c == '\r' || c == '\x0b' ||
  c == '\x0c' || c == '\x1c' || c == '\x1d' || c == '\x1e' || c == '\x1f' ||
  c == '\x85' || c == '\xa0'

/-! ## Text normalizer (the function named clean in the source)

The source does three steps: replace the non-breaking space by an
ordinary space, replace every maximal run of `[ \t]` by a single space,
and strip leading and trailing whitespace.
-/

/-- Step 1 of the normalizer: replace each non-breaking space with a space. -/
def replaceNbsp (l : List Char) : List Char :=
  l.map (fun c => if c == '\xa0' then ' ' else c)

/-- Step 2 of the normalizer: the regex substitution collapsing each
maximal run of spaces and tabs into one space.  The boolean flag records
whether we are inside a run whose single replacement space was already
emitted. -/
def collapseAux : Bool → List Char → List Char
  | _, [] => []
  | true, c :: rest =>
      if isHT c then collapseAux true rest else c :: collapseAux false rest
  | false, c :: rest =>
      if isHT c then ' ' :: collapseAux true rest else c :: collapseAux false rest

/-- Collapse runs of horizontal whitespace to a single space. -/
def collapse (l : List Char) : List Char := collapseAux false l

/-- Drop leading Python whitespace. -/
def trimLeft (l : List Char) : List Char := l.dropWhile isPyWS

/-- Drop trailing Python whitespace. -/
def trimRight : List Char → List Char
  | [] => []
  | c :: rest =>
      if (trimRight rest).isEmpty then (if isPyWS c then [] else [c])
      else c :: trimRight rest

/-- Strip leading and trailing whitespace, as the Python strip method. -/
def pyStrip (l : List Char) : List Char := trimRight (trimLeft l)

/-- The text normalizer of the source: replace non-breaking spaces,
collapse horizontal whitespace runs, strip both ends. -/
def clean (s : String) : String :=
  String.mk (pyStrip (collapse (replaceNbsp s.data)))

/-! ### Normal forms for the normalizer -/

/-- Does the head of the list satisfy the predicate. -/
def firstSat (q : Char → Bool) : List Char → Bool
  | [] => false
  | c :: _ => q c

/-- No tab occurs in the list. -/
def noTab (l : List Char) : Bool := l.all (fun c => !(c == '\t'))

/-- No two adjacent spaces occur in the list. -/
def noSS : List Char → Bool
  | a :: b :: rest => !(a == ' ' && b == ' ') && noSS (b :: rest)
  | _ => true

/-! ## Numeric parsing (the function parse indian number)

The source strips the string, removes every comma, and applies the
Python float constructor, returning zero when that raises.  The float
constructor is modelled exactly on finite literals: optional sign, a
digit part with optional underscores between digits, an optional
fractional part, an optional exponent; the special spellings inf,
infinity and nan are also recognized.  Finite values are modelled as
exact rationals. -/

/-- Result type of the Python float constructor. -/
inductive PyFloat where
  | finite (q : ℚ)
  | infty (neg : Bool)
  | nan
deriving DecidableEq

/-- Numeric value of a digit character. -/
def digitVal (c : Char) : ℕ := c.toNat - 48

/-- Consume a maximal digit run in which an underscore may stand
between two digits, returning the accumulated value, the number of
digits read and the remaining input. -/
def digitsUAux (v cnt : ℕ) : List Char → ℕ × ℕ × List Char
  | [] => (v, cnt, [])
  | c :: rest =>
      if c.isDigit then digitsUAux (10 * v + digitVal c) (cnt + 1) rest
      else if c = '_' then
        if cnt = 0 then (v, cnt, c :: rest)
        else
          match rest with
          | [] => (v, cnt, [c])
          | d :: rest2 =>
              if d.isDigit then digitsUAux (10 * v + digitVal d) (cnt + 1) rest2
              else (v, cnt, c :: d :: rest2)
      else (v, cnt, c :: rest)

/-- Strip one optional sign, returning whether it was a minus. -/
def signSplit : List Char → Bool × List Char
  | '+' :: r => (false, r)
  | '-' :: r => (true, r)
  | r => (false, r)

/-- Apply a sign flag to a rational. -/
def applySign (neg : Bool) (q : ℚ) : ℚ := if neg then -q else q

/-- Parse the optional exponent and require the end of input, then
assemble the finite value. -/
def expPart (neg : Bool) (ip fv fcnt : ℕ) : List Char → Option ℚ
  | [] => some (applySign neg ((ip : ℚ) + (fv : ℚ) / (10 : ℚ) ^ fcnt))
  | e :: r2 =>
      if e = 'e' ∨ e = 'E' then
        match signSplit r2 with
        | (eneg, r3) =>
            match digitsUAux 0 0 r3 with
            | (ev, ecnt, r4) =>
                if ecnt = 0 then none
                else if r4.isEmpty then
                  some (applySign neg (((ip : ℚ) + (fv : ℚ) / (10 : ℚ) ^ fcnt) *
                    (10 : ℚ) ^ (if eneg then -(ev : ℤ) else (ev : ℤ))))
                else none
      else none

/-- Parse the part after the integer digits: an optional fraction then
the optional exponent.  The count of integer digits read so far is
needed because a bare dot with no digits on either side is invalid. -/
def fracAndExp (neg : Bool) (ip icnt : ℕ) : List Char → Option ℚ
  | '.' :: r =>
      match digitsUAux 0 0 r with
      | (fv, fcnt, r2) =>
          if icnt + fcnt = 0 then none else expPart neg ip fv fcnt r2
  | r => if icnt = 0 then none else expPart neg ip 0 0 r

/-- The Python float constructor on a character list: strip
whitespace, read an optional sign, recognize the special spellings,
otherwise parse the finite literal grammar. -/
def pyFloatOfList (l : List Char) : Option PyFloat :=
  match signSplit (pyStrip l) with
  | (neg, t1) =>
      let low := t1.map Char.toLower
      if low = "infinity".data ∨ low = "inf".data then some (PyFloat.infty neg)
      else if low = "nan".data then some PyFloat.nan
      else
        match digitsUAux 0 0 t1 with
        | (v, cnt, r1) => (fracAndExp neg v cnt r1).map PyFloat.finite

/-- Remove every comma. -/
def removeCommas (l : List Char) : List Char := l.filter (fun c => !(c == ','))

/-- The numeric parser of the source: empty input gives zero, else
strip, drop commas and apply the float constructor, with zero on
failure. -/
def parseIndianNumber (s : String) : PyFloat :=
  if s.data.isEmpty then PyFloat.finite 0
  else
    match pyFloatOfList (removeCommas (pyStrip s.data)) with
    | some f => f
    | none => PyFloat.finite 0

/-! ## Date parsing (the function parse date)

The source strips the input and tries the five strptime formats
%Y-%m-%d, %d-%b-%Y, %d-%b-%y, %d/%m/%Y and %d-%m-%Y in order,
returning the first successful parse as a datetime and the stripped
string itself when every format fails.  Each strptime directive is
translated from the regular expression the Python strptime engine
builds for it: the year directive %Y is exactly four digits, %y
exactly two (mapped to 2000 to 2068 or 1969 to 1999), the month
directive matches 1[0-2]|0[1-9]|[1-9], the day directive matches
3[01]|[12]\d|0[1-9]|[1-9], and %b matches an abbreviated English month
name case-insensitively.  The whole string must be consumed, and the
resulting day is validated against the month length as the datetime
constructor does. -/

/-- Result of the date parser: a calendar date or the original
(stripped) string. -/
inductive DateOrStr where
  | date (year month day : ℕ)
  | str (s : String)
deriving DecidableEq

/-- A strptime format is a sequence of these tokens. -/
inductive FmtTok where
  | lit (c : Char)
  | dd
  | mm
  | yy
  | yyyy
  | mon
deriving DecidableEq

/-- Partially filled date fields, with the strptime defaults. -/
structure DateParts where
  y : ℕ := 1900
  m : ℕ := 1
  d : ℕ := 1
deriving DecidableEq

/-- Candidates for the day directive, in the order of the alternation
3[01]|[12]\d|0[1-9]|[1-9] used by the strptime engine. -/
def dCands : List Char → List (ℕ × List Char) :=
  fun l =>
    (match l with
     | '3' :: x :: r =>
         if x = '0' ∨ x = '1' then [(30 + digitVal x, r)] else []
     | _ => []) ++
    (match l with
     | a :: x :: r =>
         if (a = '1' ∨ a = '2') ∧ x.isDigit then
           [(10 * digitVal a + digitVal x, r)]
         else []
     | _ => []) ++
    (match l with
     | '0' :: x :: r =>
         if x.isDigit ∧ ¬ x = '0' then [(digitVal x, r)] else []
     | _ => []) ++
    (match l with
     | x :: r => if x.isDigit ∧ ¬ x = '0' then [(digitVal x, r)] else []
     | _ => [])

/-- Candidates for the month directive, alternation
1[0-2]|0[1-9]|[1-9]. -/
def mCands : List Char → List (ℕ × List Char) :=
  fun l =>
    (match l with
     | '1' :: x :: r =>
         if x = '0' ∨ x = '1' ∨ x = '2' then [(10 + digitVal x, r)] else []
     | _ => []) ++
    (match l with
     | '0' :: x :: r =>
         if x.isDigit ∧ ¬ x = '0' then [(digitVal x, r)] else []
     | _ => []) ++
    (match l with
     | x :: r => if x.isDigit ∧ ¬ x = '0' then [(digitVal x, r)] else []
     | _ => [])

/-- The strptime two-digit-year mapping: 0 to 68 mean 2000 to 2068,
69 to 99 mean 1969 to 1999. -/
def fullYearOf2 (n : ℕ) : ℕ := if n ≤ 68 then 2000 + n else 1900 + n

/-- Candidates for the two-digit year directive. -/
def yCands : List Char → List (ℕ × List Char)
  | a :: b :: r =>
      if a.isDigit ∧ b.isDigit then
        [(fullYearOf2 (10 * digitVal a + digitVal b), r)]
      else []
  | _ => []

/-- Candidates for the four-digit year directive. -/
def YCands : List Char → List (ℕ × List Char)
  | a :: b :: c :: d :: r =>
      if a.isDigit ∧ b.isDigit ∧ c.isDigit ∧ d.isDigit then
        [(1000 * digitVal a + 100 * digitVal b + 10 * digitVal c + digitVal d, r)]
      else []
  | _ => []

/-- Drop a keyword from the front of the input, comparing
case-insensitively; the keyword itself is given in lowercase. -/
def ciDrop : List Char → List Char → Option (List Char)
  | [], l => some l
  | _ :: _, [] => none
  | k :: ks, c :: cs => if c.toLower = k then ciDrop ks cs else none

/-- The abbreviated English month names with their month numbers. -/
def monthAbbrevs : List (ℕ × List Char) :=
  [(1, ['j', 'a', 'n']), (2, ['f', 'e', 'b']), (3, ['m', 'a', 'r']),
   (4, ['a', 'p', 'r']), (5, ['m', 'a', 'y']), (6, ['j', 'u', 'n']),
   (7, ['j', 'u', 'l']), (8, ['a', 'u', 'g']), (9, ['s', 'e', 'p']),
   (10, ['o', 'c', 't']), (11, ['n', 'o', 'v']), (12, ['d', 'e', 'c'])]

/-- Candidates for the abbreviated month-name directive. -/
def bCands (l : List Char) : List (ℕ × List Char) :=
  monthAbbrevs.filterMap fun p =>
    match ciDrop p.2 l with
    | some r => some (p.1, r)
    | none => none

/-- Run a format over the input with backtracking across the
alternations of each directive; the whole input must be consumed. -/
def runFmt : List FmtTok → DateParts → List Char → Option DateParts
  | [], dp, l => if l.isEmpty then some dp else none
  | FmtTok.lit c :: ts, dp, l =>
      match l with
      | x :: r => if x = c then runFmt ts dp r else none
      | [] => none
  | FmtTok.dd :: ts, dp, l =>
      (dCands l).findSome? fun p => runFmt ts { dp with d := p.1 } p.2
  | FmtTok.mm :: ts, dp, l =>
      (mCands l).findSome? fun p => runFmt ts { dp with m := p.1 } p.2
  | FmtTok.yy :: ts, dp, l =>
      (yCands l).findSome? fun p => runFmt ts { dp with y := p.1 } p.2
  | FmtTok.yyyy :: ts, dp, l =>
      (YCands l).findSome? fun p => runFmt ts { dp with y := p.1 } p.2
  | FmtTok.mon :: ts, dp, l =>
      (bCands l).findSome? fun p => runFmt ts { dp with m := p.1 } p.2

/-- Leap year test of the Gregorian calendar. -/
def isLeap (y : ℕ) : Bool := (y % 4 = 0 ∧ ¬ y % 100 = 0) ∨ y % 400 = 0

/-- Days in a month. -/
def daysInMonth (y m : ℕ) : ℕ :=
  if m = 2 then (if isLeap y then 29 else 28)
  else if m = 4 ∨ m = 6 ∨ m = 9 ∨ m = 11 then 30
  else 31

/-- The datetime constructor check: the year must be at least 1 and
the day must fit the month. -/
def mkDatetime (dp : DateParts) : Option (ℕ × ℕ × ℕ) :=
  if 1 ≤ dp.y ∧ 1 ≤ dp.d ∧ dp.d ≤ daysInMonth dp.y dp.m then
    some (dp.y, dp.m, dp.d)
  else none

/-- One strptime attempt: run the format, then build the datetime. -/
def strptime (fmt : List FmtTok) (l : List Char) : Option (ℕ × ℕ × ℕ) :=
  (runFmt fmt {} l).bind mkDatetime

/-- The five formats tried by the source, in order. -/
def dateFormats : List (List FmtTok) :=
  [[FmtTok.yyyy, FmtTok.lit '-', FmtTok.mm, FmtTok.lit '-', FmtTok.dd],
   [FmtTok.dd, FmtTok.lit '-', FmtTok.mon, FmtTok.lit '-', FmtTok.yyyy],
   [FmtTok.dd, FmtTok.lit '-', FmtTok.mon, FmtTok.lit '-', FmtTok.yy],
   [FmtTok.dd, FmtTok.lit '/', FmtTok.mm, FmtTok.lit '/', FmtTok.yyyy],
   [FmtTok.dd, FmtTok.lit '-', FmtTok.mm, FmtTok.lit '-', FmtTok.yyyy]]

/-- The date parser of the source: strip, try each format in order,
and fall back to the stripped string itself. -/
def parseDate (s : String) : DateOrStr :=
  match dateFormats.findSome? (fun f => strptime f (pyStrip s.data)) with
  | some (y, m, d) => DateOrStr.date y m d
  | none => DateOrStr.str (String.mk (pyStrip s.data))

/-! ## Registration number (GSTN) matchers

Two matchers appear in the source.  The module-level pattern, used by
the whole-text scan, is case-sensitive and surrounded by word
boundaries: a match is a maximal word-character token of exactly
fifteen characters fitting the positional classes.  The label-based
extractor compiles label + \s* + optional colon + \s* + the same
fifteen classes, but under the IGNORECASE flag, which in Python also
applies to the character classes, so there the letter positions accept
both cases. -/

/-- Uppercase letter class of the pattern. -/
def upperClass (c : Char) : Bool := c.isUpper

/-- Uppercase-or-digit class of the pattern. -/
def alnumUClass (c : Char) : Bool := c.isDigit || c.isUpper

/-- Letter class of the pattern under IGNORECASE. -/
def letterCIClass (c : Char) : Bool := c.isAlpha

/-- Letter-or-digit class of the pattern under IGNORECASE. -/
def alnumCIClass (c : Char) : Bool := c.isDigit || c.isAlpha

/-- Digit class. -/
def digitClass (c : Char) : Bool := c.isDigit

/-- The fifteen positional classes of the case-sensitive pattern:
two digits, five uppercase letters, four digits, one uppercase letter,
one digit-or-uppercase, one uppercase letter, one digit-or-uppercase. -/
def gstnClasses : List (Char → Bool) :=
  [digitClass, digitClass,
   upperClass, upperClass, upperClass, upperClass, upperClass,
   digitClass, digitClass, digitClass, digitClass,
   upperClass, alnumUClass, upperClass, alnumUClass]

/-- The same classes under IGNORECASE. -/
def gstnClassesCI : List (Char → Bool) :=
  [digitClass, digitClass,
   letterCIClass, letterCIClass, letterCIClass, letterCIClass, letterCIClass,
   digitClass, digitClass, digitClass, digitClass,
   letterCIClass, alnumCIClass, letterCIClass, alnumCIClass]

/-- Does the list match the classes exactly, position by position. -/
def matchesClasses : List (Char → Bool) → List Char → Bool
  | [], [] => true
  | q :: qs, c :: cs => q c && matchesClasses qs cs
  | _, _ => false

/-- The case-sensitive structural validator of the module-level
pattern. -/
def gstnShape (l : List Char) : Bool := matchesClasses gstnClasses l

/-- The case-insensitive shape matched by the label-based extractor. -/
def gstnShapeCI (l : List Char) : Bool := matchesClasses gstnClassesCI l

/-- Word characters for the word-boundary semantics of the scan. -/
def isWordChar (c : Char) : Bool := c.isAlphanum || c == '_'

/-- Split the text into its maximal word-character tokens. -/
def wordTokensAux (cur : List Char) : List Char → List (List Char)
  | [] => if cur.isEmpty then [] else [cur.reverse]
  | c :: rest =>
      if isWordChar c then wordTokensAux (c :: cur) rest
      else if cur.isEmpty then wordTokensAux [] rest
      else cur.reverse :: wordTokensAux [] rest

/-- Maximal word-character tokens of a text. -/
def wordTokens (l : List Char) : List (List Char) := wordTokensAux [] l

/-- Keep first occurrences only, as the seen-list loop of the source. -/
def uniqueKeep : List String → List String → List String
  | acc, [] => acc
  | acc, g :: r =>
      if g ∈ acc then uniqueKeep acc r else uniqueKeep (acc ++ [g]) r

/-- The whole-text scan: all structurally valid registration numbers
in order of first appearance, deduplicated. -/
def findAllUniqueGstns (text : String) : List String :=
  uniqueKeep [] (((wordTokens text.data).filter gstnShape).map String.mk)

/-- Case-insensitive literal match of a label, returning the rest. -/
def ciMatchDrop : List Char → List Char → Option (List Char)
  | [], l => some l
  | _ :: _, [] => none
  | k :: ks, c :: cs =>
      if c.toLower = k.toLower then ciMatchDrop ks cs else none

/-- Take characters matching the classes one by one, returning the
matched group and the rest. -/
def takeClasses : List (Char → Bool) → List Char → Option (List Char × List Char)
  | [], l => some ([], l)
  | _ :: _, [] => none
  | q :: qs, c :: cs =>
      if q c then (takeClasses qs cs).map (fun p => (c :: p.1, p.2)) else none

/-- Skip optional whitespace, an optional colon, then optional
whitespace. -/
def afterLabelDrop (l : List Char) : List Char :=
  match l.dropWhile isPyWS with
  | ':' :: t => t.dropWhile isPyWS
  | r1 => r1

/-- After a matched label: the separator, then the fifteen
case-insensitive classes; the pattern imposes no boundary after the
group. -/
def afterLabelTail (l : List Char) : Option (List Char) :=
  (takeClasses gstnClassesCI (afterLabelDrop l)).map Prod.fst

/-- One attempt of the compiled pattern at the current position: the
label (matched case-insensitively) followed by the separator and the
group. -/
def searchLabelStep (label l : List Char) : Option (List Char) :=
  match ciMatchDrop label l with
  | some rest => afterLabelTail rest
  | none => none

/-- Search for the leftmost position where the whole pattern matches,
returning the captured group. -/
def searchLabel (label : List Char) : List Char → Option (List Char)
  | [] => searchLabelStep label []
  | c :: t =>
      match searchLabelStep label (c :: t) with
      | some g => some g
      | none => searchLabel label t

/-- The default label list of the source. -/
def defaultGstnLabels : List String :=
  ["GSTIN/UIN", "GSTIN No", "GSTN No", "GSTIN", "GST NO", "GSTNO"]

/-- Label-based extraction with an explicit label list: try each label
in order and return the first captured group, or the empty string. -/
def extractGstnWith (labels : List String) (text : String) : String :=
  match labels.findSome? (fun lab => searchLabel lab.data text.data) with
  | some g => String.mk g
  | none => ""

/-- Label-based extraction as all three extractors call it, with the
default labels. -/
def extractGstn (text : String) : String :=
  extractGstnWith defaultGstnLabels text

/-- Shape of a registration number as the specification words it:
fifteen characters, being two digits, five uppercase letters, four
digits, one uppercase letter, one alphanumeric, one uppercase letter,
one alphanumeric. -/
def specGstnShape (l : List Char) : Prop :=
  l.length = 15 ∧
  (∀ i, i < 2 → (l.getD i ' ').isDigit = true) ∧
  (∀ i, 2 ≤ i → i < 7 → (l.getD i ' ').isUpper = true) ∧
  (∀ i, 7 ≤ i → i < 11 → (l.getD i ' ').isDigit = true) ∧
  (l.getD 11 ' ').isUpper = true ∧
  ((l.getD 12 ' ').isDigit = true ∨ (l.getD 12 ' ').isUpper = true) ∧
  (l.getD 13 ' ').isUpper = true ∧
  ((l.getD 14 ' ').isDigit = true ∨ (l.getD 14 ' ').isUpper = true)

/-! ## Company detection

The company signature patterns are case-insensitive sequences of
literal words separated by one-or-more whitespace, with one
alternation for the third vendor.  The classifier iterates over the
pattern dictionary in insertion order and returns the first name whose
pattern is found in the full document text. -/

/-- Require one or more whitespace characters, consuming the run. -/
def ws1 : List Char → Option (List Char)
  | c :: rest => if isPyWS c then some (rest.dropWhile isPyWS) else none
  | [] => none

/-- Match a sequence of literal words separated by runs of whitespace,
case-insensitively, at the current position. -/
def ciWordSeqAt : List (List Char) → List Char → Bool
  | [], _ => true
  | [w], l => (ciMatchDrop w l).isSome
  | w :: ws, l =>
      match ciMatchDrop w l with
      | some rest =>
          match ws1 rest with
          | some rest2 => ciWordSeqAt ws rest2
          | none => false
      | none => false

/-- Search the word sequence anywhere in the text. -/
def searchSeq (words : List (List Char)) : List Char → Bool
  | [] => ciWordSeqAt words []
  | c :: t => ciWordSeqAt words (c :: t) || searchSeq words t

/-- Signature of the first vendor. -/
def mogliSig (s : String) : Bool :=
  searchSeq ["Mogli".data, "Labs".data] s.data

/-- Signature of the second vendor. -/
def sdiSig (s : String) : Bool :=
  searchSeq ["SDI".data, "Business".data, "Services".data] s.data

/-- Signature of the third vendor: an alternation of two phrases. -/
def jllSig (s : String) : Bool :=
  searchSeq ["Jones".data, "Lang".data, "LaSalle".data] s.data ||
  searchSeq ["JLL".data, "invoice".data] s.data

/-- The ordered company pattern dictionary of the source. -/
def companyPatterns : List (String × (String → Bool)) :=
  [("Mogli Labs", mogliSig), ("SDI", sdiSig), ("JLL", jllSig)]

/-- The classifier: first company in the fixed order whose signature
matches the full text, if any. -/
def detectCompany (fullText : String) : Option String :=
  (companyPatterns.find? (fun p => p.2 fullText)).map Prod.fst

/-- The per-document pipeline around the classifier, with the chosen
extractor family abstracted: join the pages, classify, and hand the
pages to the extractor of the detected company; an unrecognized
document contributes no records.  The exception guard around the
extractor call, which also yields zero records, is not modelled. -/
def processPdf {α : Type} (extractors : String → List String → List α)
    (pages : List String) : Option String × List α :=
  match detectCompany (String.intercalate "\n" pages) with
  | none => (none, [])
  | some c => (some c, extractors c pages)

/-! ## SDI line-item rows and tax reconciliation

A row of the SDI extractor is a dictionary with a fixed key set; it is
modelled as a structure with one field per key.  Python float
arithmetic on the monetary fields is modelled by exact rational
arithmetic.  The reconciliation pass searches the last page for the
tax summary block; the outcome of that regex search is abstracted as
an optional pair of the two captured integer percentages, and the
per-row update sequence is translated statement by statement. -/

structure SDIRow where
  invoiceType : String
  vendorName : String
  vendorGstn : String
  buyerName : String
  buyerGstn : String
  invoiceNo : String
  invoiceDate : DateOrStr
  description : String
  hsn : String
  quantity : ℚ
  rate : ℚ
  per : String
  taxableTotal : ℚ
  igstPct : ℚ
  igstAmt : ℚ
  cgstPct : ℚ
  cgstAmt : ℚ
  sgstPct : ℚ
  sgstAmt : ℚ
  amount : ℚ
deriving DecidableEq

/-- Construction of one SDI row from a line-item match, translated
from the row-building block of the SDI extractor: the taxable total is
rate times quantity, the provisional tax rates are nine percent for
both components, the inter-state component is zero, and the amount is
the taxable total plus all three tax amounts. -/
def mkSDIRow (invoice_type vendor_name vendor_gstn buyer_name buyer_gstn
    invoice_no : String) (invoice_date : DateOrStr)
    (description hsn : String) (qty rate : ℚ) (per : String) : SDIRow :=
  let taxable_total := rate * qty
  let cgst_pct : ℚ := 9 / 100
  let sgst_pct : ℚ := 9 / 100
  let igst_pct : ℚ := 0
  let igst_amt : ℚ := 0
  let cgst_amt := taxable_total * cgst_pct
  let sgst_amt := taxable_total * sgst_pct
  let total_amount := taxable_total + igst_amt + cgst_amt + sgst_amt
  { invoiceType := invoice_type
    vendorName := vendor_name
    vendorGstn := vendor_gstn
    buyerName := buyer_name
    buyerGstn := buyer_gstn
    invoiceNo := invoice_no
    invoiceDate := invoice_date
    description := description
    hsn := hsn
    quantity := qty
    rate := rate
    per := per
    taxableTotal := taxable_total
    igstPct := igst_pct
    igstAmt := igst_amt
    cgstPct := cgst_pct
    cgstAmt := cgst_amt
    sgstPct := sgst_pct
    sgstAmt := sgst_amt
    amount := total_amount }

/-- The per-row update sequence of the reconciliation loop, in the
order of the source statements: overwrite both percentage fields, then
recompute both tax amounts from the taxable total, then recompute the
amount as the taxable total plus all three tax amounts. -/
def sdiOverride (cgstRate sgstRate : ℚ) (row : SDIRow) : SDIRow :=
  let r1 := { row with cgstPct := cgstRate }
  let r2 := { r1 with sgstPct := sgstRate }
  let taxable := r2.taxableTotal
  let r3 := { r2 with cgstAmt := taxable * cgstRate }
  let r4 := { r3 with sgstAmt := taxable * sgstRate }
  { r4 with amount := taxable + r4.igstAmt + r4.cgstAmt + r4.sgstAmt }

/-- The reconciliation pass over the batch of a document: when the
summary regex matched, its two captured integer percentages are
divided by one hundred and applied to every row; when the summary
block is absent the rows are left untouched. -/
def sdiReconcile (summary : Option (ℕ × ℕ)) (rows : List SDIRow) :
    List SDIRow :=
  match summary with
  | none => rows
  | some (cd, sd) =>
      rows.map (sdiOverride ((cd : ℚ) / 100) ((sd : ℚ) / 100))

/-! ## Row dictionaries and column schemas

The three column lists are the fixed output schemas, copied verbatim
from the source, including the four embedded spaces of the IGST
percentage column.  Each extractor builds its row dictionaries with a
literal key set; those literals are transcribed below, with the values
abstracted where the surrounding extraction is not itself modelled. -/

/-- A value stored in a row dictionary. -/
inductive PyVal where
  | s (v : String)
  | n (v : ℚ)
  | d (v : DateOrStr)
deriving DecidableEq

def MOGLI_COLUMNS : List String :=
  ["Invoice Type", "Vendor Name (Billed From)", "Vendor GSTN (Billed From GSTN)",
   "Buyer Name (Billed To)", "Buyer GSTIN (Billed To GSTN)", "Place of Suply",
   "Invoice No", "Invoice Date", "Description of Goods", "HSN", "Qty", "Unit",
   "Unit Price", "Taxable Total", "IGST    %", "IGST Amount", "CGST %",
   "CGST Amount", "SGST %", "SGST Amount", "Amount"]

def SDI_COLUMNS : List String :=
  ["Invoice Type", "Vendor Name (Billed From)", "Vendor GSTN (Billed From GSTN)",
   "Buyer Name (Billed To)", "Buyer GSTIN (Billed To GSTN)", "Invoice No",
   "Invoice Date", "Description of Goods", "HSN/SAC", "Quantity", "Rate", "Per",
   "Taxable Total", "IGST    %", "IGST Amount", "CGST %", "CGST Amount",
   "SGST %", "SGST Amount", "Amount"]

def JLL_COLUMNS : List String :=
  ["Invoice Type", "Vendor Name (Billed From)", "Vendor GSTN (Billed From GSTN)",
   "Buyer Name (Billed To)", "Buyer GSTIN (Billed To GSTN)", "Place of Suply",
   "Invoice No", "Invoice Date", "Description", "HSN", "Qty", "Taxable Value",
   "IGST    %", "IGST Amount", "CGST %", "CGST Amount", "SGST %",
   "SGST Amount", "Amount", "Site Name", "Service Type"]

/-- The row dictionary built by the first extractor, keys in the order
of the source literal; the inter-state tax fields are the constant
zero of the intra-state layout. -/
def mogliRowDict (invoice_type vendor_name vendor_gstn buyer_name
    buyer_gstn place_of_supply invoice_no : String)
    (invoice_date : DateOrStr) (description hsn : String) (qty : ℚ)
    (unit : String) (unit_price taxable_total cgst_pct cgst_amt sgst_pct
    sgst_amt amount : ℚ) : List (String × PyVal) :=
  [("Invoice Type", PyVal.s invoice_type),
   ("Vendor Name (Billed From)", PyVal.s vendor_name),
   ("Vendor GSTN (Billed From GSTN)", PyVal.s vendor_gstn),
   ("Buyer Name (Billed To)", PyVal.s buyer_name),
   ("Buyer GSTIN (Billed To GSTN)", PyVal.s buyer_gstn),
   ("Place of Suply", PyVal.s place_of_supply),
   ("Invoice No", PyVal.s invoice_no),
   ("Invoice Date", PyVal.d invoice_date),
   ("Description of Goods", PyVal.s description),
   ("HSN", PyVal.s hsn),
   ("Qty", PyVal.n qty),
   ("Unit", PyVal.s unit),
   ("Unit Price", PyVal.n unit_price),
   ("Taxable Total", PyVal.n taxable_total),
   ("IGST    %", PyVal.n 0),
   ("IGST Amount", PyVal.n 0),
   ("CGST %", PyVal.n cgst_pct),
   ("CGST Amount", PyVal.n cgst_amt),
   ("SGST %", PyVal.n sgst_pct),
   ("SGST Amount", PyVal.n sgst_amt),
   ("Amount", PyVal.n amount)]

/-- The row dictionary of the SDI extractor, as a view of the row
structure, keys in the order of the source literal. -/
def sdiRowDict (r : SDIRow) : List (String × PyVal) :=
  [("Invoice Type", PyVal.s r.invoiceType),
   ("Vendor Name (Billed From)", PyVal.s r.vendorName),
   ("Vendor GSTN (Billed From GSTN)", PyVal.s r.vendorGstn),
   ("Buyer Name (Billed To)", PyVal.s r.buyerName),
   ("Buyer GSTIN (Billed To GSTN)", PyVal.s r.buyerGstn),
   ("Invoice No", PyVal.s r.invoiceNo),
   ("Invoice Date", PyVal.d r.invoiceDate),
   ("Description of Goods", PyVal.s r.description),
   ("HSN/SAC", PyVal.s r.hsn),
   ("Quantity", PyVal.n r.quantity),
   ("Rate", PyVal.n r.rate),
   ("Per", PyVal.s r.per),
   ("Taxable Total", PyVal.n r.taxableTotal),
   ("IGST    %", PyVal.n r.igstPct),
   ("IGST Amount", PyVal.n r.igstAmt),
   ("CGST %", PyVal.n r.cgstPct),
   ("CGST Amount", PyVal.n r.cgstAmt),
   ("SGST %", PyVal.n r.sgstPct),
   ("SGST Amount", PyVal.n r.sgstAmt),
   ("Amount", PyVal.n r.amount)]

/-- The row dictionary built by the third extractor, keys in the order
of the source literal; the quantity field is the constant zero of that
layout and the inter-state tax fields are the constant zero set just
above the dictionary literal. -/
def jllRowDict (invoice_type vendor_name vendor_gstn buyer_name
    buyer_gstn place_of_supply invoice_no : String)
    (invoice_date : DateOrStr) (description hsn : String)
    (taxable_value cgst_pct cgst_amt sgst_pct sgst_amt amount : ℚ)
    (site_name service_type : String) : List (String × PyVal) :=
  [("Invoice Type", PyVal.s invoice_type),
   ("Vendor Name (Billed From)", PyVal.s vendor_name),
   ("Vendor GSTN (Billed From GSTN)", PyVal.s vendor_gstn),
   ("Buyer Name (Billed To)", PyVal.s buyer_name),
   ("Buyer GSTIN (Billed To GSTN)", PyVal.s buyer_gstn),
   ("Place of Suply", PyVal.s place_of_supply),
   ("Invoice No", PyVal.s invoice_no),
   ("Invoice Date", PyVal.d invoice_date),
   ("Description", PyVal.s description),
   ("HSN", PyVal.s hsn),
   ("Qty", PyVal.n 0),
   ("Taxable Value", PyVal.n taxable_value),
   ("IGST    %", PyVal.n 0),
   ("IGST Amount", PyVal.n 0),
   ("CGST %", PyVal.n cgst_pct),
   ("CGST Amount", PyVal.n cgst_amt),
   ("SGST %", PyVal.n sgst_pct),
   ("SGST Amount", PyVal.n sgst_amt),
   ("Amount", PyVal.n amount),
   ("Site Name", PyVal.s site_name),
   ("Service Type", PyVal.s service_type)]

/-! END OF DEFINITIONS. The remainder of the file consists of lemmas
and the claim theorems. -/

lemma firstSat_cons (q : Char → Bool) (c : Char) (l : List Char) :
    firstSat q (c :: l) = q c := rfl

lemma trimRight_cons (c : Char) (rest : List Char) :
    trimRight (c :: rest) =
      if (trimRight rest).isEmpty then (if isPyWS c then [] else [c])
      else c :: trimRight rest := rfl

lemma noTab_cons (c : Char) (l : List Char) :
    noTab (c :: l) = ((!(c == '\t')) && noTab l) := rfl

lemma noSS_cons_cons (a b : Char) (rest : List Char) :
    noSS (a :: b :: rest) = ((!(a == ' ' && b == ' ')) && noSS (b :: rest)) := rfl

lemma noSS_tail {a : Char} {l : List Char} (h : noSS (a :: l) = true) :
    noSS l = true := by
  cases l with
  | nil => rfl
  | cons b rest =>
      rw [noSS_cons_cons] at h
      simp at h
      exact h.2

lemma noSS_cons {c : Char} {l : List Char}
    (h1 : c = ' ' → firstSat (fun d => d == ' ') l = false)
    (h2 : noSS l = true) : noSS (c :: l) = true := by
  cases l with
  | nil => rfl
  | cons b rest =>
      rw [noSS_cons_cons]
      simp [h2]
      by_cases hc : c = ' '
      · have hb := h1 hc
        simp [firstSat] at hb
        exact Or.inr hb
      · exact Or.inl hc

lemma firstSat_collapseAux_true (l : List Char) :
    firstSat isHT (collapseAux true l) = false := by
  induction l with
  | nil => rfl
  | cons c rest ih =>
      unfold collapseAux
      by_cases h : isHT c = true
      · simp [h, ih]
      · simp [h, firstSat]

lemma not_tab_of_not_HT {c : Char} (h : ¬ isHT c = true) : (c == '\t') = false := by
  unfold isHT at h
  simp at h
  simp [h.2]

lemma not_space_of_not_HT {c : Char} (h : ¬ isHT c = true) : (c == ' ') = false := by
  unfold isHT at h
  simp at h
  simp [h.1]

lemma noTab_collapseAux (b : Bool) (l : List Char) :
    noTab (collapseAux b l) = true := by
  induction l generalizing b with
  | nil => cases b <;> rfl
  | cons c rest ih =>
      cases b with
      | true =>
          unfold collapseAux
          by_cases h : isHT c = true
          · simp [h, ih]
          · simp [h, noTab_cons, not_tab_of_not_HT h, ih false]
      | false =>
          unfold collapseAux
          by_cases h : isHT c = true
          · simp [h, noTab_cons, ih true]
          · simp [h, noTab_cons, not_tab_of_not_HT h, ih false]

lemma firstSat_space_of_not_HT {l : List Char}
    (h : firstSat isHT l = false) : firstSat (fun d => d == ' ') l = false := by
  cases l with
  | nil => rfl
  | cons c rest =>
      unfold firstSat at h ⊢
      unfold isHT at h
      simp at h
      simp [h.1]

lemma noSS_collapseAux (b : Bool) (l : List Char) :
    noSS (collapseAux b l) = true := by
  induction l generalizing b with
  | nil => cases b <;> rfl
  | cons c rest ih =>
      cases b with
      | true =>
          unfold collapseAux
          by_cases h : isHT c = true
          · simp [h, ih]
          · simp [h]
            apply noSS_cons
            · intro hc
              exfalso
              apply h
              simp [isHT, hc]
            · exact ih false
      | false =>
          unfold collapseAux
          by_cases h : isHT c = true
          · simp [h]
            apply noSS_cons
            · intro _
              exact firstSat_space_of_not_HT (firstSat_collapseAux_true rest)
            · exact ih true
          · simp [h]
            apply noSS_cons
            · intro hc
              exfalso
              apply h
              simp [isHT, hc]
            · exact ih false

lemma collapseAux_true_eq_false {l : List Char} (h : firstSat isHT l = false) :
    collapseAux true l = collapseAux false l := by
  cases l with
  | nil => rfl
  | cons c rest =>
      rw [firstSat_cons] at h
      unfold collapseAux
      simp [h]

lemma collapse_id {l : List Char} (ht : noTab l = true) (hs : noSS l = true) :
    collapseAux false l = l := by
  induction l with
  | nil => rfl
  | cons c rest ih =>
      rw [noTab_cons] at ht
      simp at ht
      have hs' := noSS_tail hs
      have ih' := ih ht.2 hs'
      unfold collapseAux
      by_cases h : isHT c = true
      · have hc : c = ' ' := by
          unfold isHT at h
          simp at h
          rcases h with h | h
          · exact h
          · exact absurd h ht.1
        subst hc
        rw [if_pos h]
        have hrest : firstSat isHT rest = false := by
          cases rest with
          | nil => rfl
          | cons b r =>
              rw [firstSat_cons]
              rw [noSS_cons_cons] at hs
              simp at hs
              have hb2 : ¬ b = '\t' := by
                have h2 := ht.2
                rw [noTab_cons] at h2
                simp at h2
                exact h2.1
              unfold isHT
              simp [hs.1, hb2]

        rw [collapseAux_true_eq_false hrest, ih']
      · rw [if_neg h, ih']

/-! ### Strip lemmas -/

lemma firstSat_trimLeft (l : List Char) :
    firstSat isPyWS (trimLeft l) = false := by
  induction l with
  | nil => rfl
  | cons c rest ih =>
      unfold trimLeft at ih ⊢
      rw [List.dropWhile_cons]
      by_cases h : isPyWS c = true
      · simp [h, ih]
      · simp [h, firstSat_cons]

lemma trimLeft_id {l : List Char} (h : firstSat isPyWS l = false) :
    trimLeft l = l := by
  cases l with
  | nil => rfl
  | cons c rest =>
      rw [firstSat_cons] at h
      unfold trimLeft
      rw [List.dropWhile_cons]
      simp [h]

lemma trimRight_trimRight (l : List Char) :
    trimRight (trimRight l) = trimRight l := by
  induction l with
  | nil => rfl
  | cons c rest ih =>
      rw [trimRight_cons]
      by_cases hr : (trimRight rest).isEmpty = true
      · rw [if_pos hr]
        by_cases hc : isPyWS c = true
        · rw [if_pos hc]
          rfl
        · rw [if_neg hc]
          rw [trimRight_cons]
          simp [trimRight, hc]
      · rw [if_neg hr]
        rw [trimRight_cons, ih]
        rw [if_neg hr]

lemma trimRight_head (q : Char → Bool) (l : List Char) :
    trimRight l = [] ∨ firstSat q (trimRight l) = firstSat q l := by
  cases l with
  | nil => exact Or.inl rfl
  | cons c rest =>
      rw [trimRight_cons]
      by_cases hr : (trimRight rest).isEmpty = true
      · rw [if_pos hr]
        by_cases hc : isPyWS c = true
        · rw [if_pos hc]
          exact Or.inl rfl
        · rw [if_neg hc]
          exact Or.inr (by simp [firstSat_cons])
      · rw [if_neg hr]
        exact Or.inr (by simp [firstSat_cons])

lemma firstSat_pyStrip (l : List Char) :
    firstSat isPyWS (pyStrip l) = false := by
  unfold pyStrip
  rcases trimRight_head isPyWS (trimLeft l) with h | h
  · simp [h, firstSat]
  · rw [h]
    exact firstSat_trimLeft l

lemma pyStrip_pyStrip (l : List Char) : pyStrip (pyStrip l) = pyStrip l := by
  have h1 : trimLeft (pyStrip l) = pyStrip l := trimLeft_id (firstSat_pyStrip l)
  unfold pyStrip at h1 ⊢
  rw [h1]
  exact trimRight_trimRight (trimLeft l)

/-! ### Membership lemmas -/

lemma mem_trimRight {a : Char} {l : List Char} (h : a ∈ trimRight l) : a ∈ l := by
  induction l with
  | nil => exact h
  | cons c rest ih =>
      rw [trimRight_cons] at h
      by_cases hr : (trimRight rest).isEmpty = true
      · rw [if_pos hr] at h
        by_cases hc : isPyWS c = true
        · rw [if_pos hc] at h
          exact absurd h (List.not_mem_nil a)
        · rw [if_neg hc] at h
          rcases List.mem_cons.mp h with h | h
          · simp [h]
          · exact absurd h (List.not_mem_nil a)
      · rw [if_neg hr] at h
        rcases List.mem_cons.mp h with h | h
        · simp [h]
        · exact List.mem_cons_of_mem _ (ih h)

lemma mem_trimLeft {a : Char} {l : List Char} (h : a ∈ trimLeft l) : a ∈ l := by
  induction l with
  | nil => exact h
  | cons c rest ih =>
      unfold trimLeft at h ih
      rw [List.dropWhile_cons] at h
      by_cases hc : isPyWS c = true
      · rw [if_pos hc] at h
        exact List.mem_cons_of_mem _ (ih h)
      · rw [if_neg hc] at h
        exact h

lemma mem_pyStrip {a : Char} {l : List Char} (h : a ∈ pyStrip l) : a ∈ l :=
  mem_trimLeft (mem_trimRight h)

lemma mem_collapseAux {a : Char} {b : Bool} {l : List Char}
    (h : a ∈ collapseAux b l) : a = ' ' ∨ a ∈ l := by
  induction l generalizing b with
  | nil => cases b <;> simp [collapseAux] at h
  | cons c rest ih =>
      cases b with
      | true =>
          unfold collapseAux at h
          by_cases hc : isHT c = true
          · simp [hc] at h
            rcases ih h with h1 | h1
            · exact Or.inl h1
            · exact Or.inr (List.mem_cons_of_mem _ h1)
          · simp [hc] at h
            rcases h with h | h
            · exact Or.inr (by simp [h])
            · rcases ih h with h1 | h1
              · exact Or.inl h1
              · exact Or.inr (List.mem_cons_of_mem _ h1)
      | false =>
          unfold collapseAux at h
          by_cases hc : isHT c = true
          · simp [hc] at h
            rcases h with h | h
            · exact Or.inl h
            · rcases ih h with h1 | h1
              · exact Or.inl h1
              · exact Or.inr (List.mem_cons_of_mem _ h1)
          · simp [hc] at h
            rcases h with h | h
            · exact Or.inr (by simp [h])
            · rcases ih h with h1 | h1
              · exact Or.inl h1
              · exact Or.inr (List.mem_cons_of_mem _ h1)

lemma nbsp_not_mem_replaceNbsp (l : List Char) : '\xa0' ∉ replaceNbsp l := by
  intro h
  unfold replaceNbsp at h
  rcases List.mem_map.mp h with ⟨c, _, heq⟩
  by_cases hc : (c == '\xa0') = true
  · simp [hc] at heq
  · simp [hc] at heq
    simp at hc
    exact hc heq

lemma replaceNbsp_id {l : List Char} (h : '\xa0' ∉ l) : replaceNbsp l = l := by
  induction l with
  | nil => rfl
  | cons c rest ih =>
      unfold replaceNbsp at ih ⊢
      simp only [List.map_cons]
      have hc : (c == '\xa0') = false := by
        simp
        intro hc
        exact h (by simp [hc])
      rw [if_neg (by simp [hc])]
      rw [ih (fun hm => h (List.mem_cons_of_mem _ hm))]

/-! ### Invariant preservation through the strip step -/

lemma noTab_of_mem {l : List Char} (h : ∀ a ∈ l, (a == '\t') = false) :
    noTab l = true := by
  unfold noTab
  rw [List.all_eq_true]
  intro a ha
  simpa using h a ha

lemma noTab_mem {l : List Char} (h : noTab l = true) {a : Char} (ha : a ∈ l) :
    (a == '\t') = false := by
  unfold noTab at h
  rw [List.all_eq_true] at h
  simpa using h a ha

lemma noSS_trimLeft {l : List Char} (h : noSS l = true) :
    noSS (trimLeft l) = true := by
  induction l with
  | nil => exact h
  | cons c rest ih =>
      unfold trimLeft at ih ⊢
      rw [List.dropWhile_cons]
      by_cases hc : isPyWS c = true
      · rw [if_pos hc]
        exact ih (noSS_tail h)
      · rw [if_neg hc]
        exact h

lemma noSS_trimRight {l : List Char} (h : noSS l = true) :
    noSS (trimRight l) = true := by
  induction l with
  | nil => exact h
  | cons c rest ih =>
      rw [trimRight_cons]
      by_cases hr : (trimRight rest).isEmpty = true
      · rw [if_pos hr]
        by_cases hc : isPyWS c = true
        · rw [if_pos hc]
          rfl
        · rw [if_neg hc]
          rfl
      · rw [if_neg hr]
        apply noSS_cons
        · intro hc
          rcases trimRight_head (fun d => d == ' ') rest with h1 | h1
          · rw [h1] at hr
            simp at hr
          · rw [h1]
            cases rest with
            | nil => rfl
            | cons b r =>
                rw [firstSat_cons]
                subst hc
                rw [noSS_cons_cons] at h
                simp at h
                simp [h.1]
        · exact ih (noSS_tail h)

lemma noSS_pyStrip {l : List Char} (h : noSS l = true) :
    noSS (pyStrip l) = true :=
  noSS_trimRight (noSS_trimLeft h)

/-! ## Idempotence of the text normalizer (claim C7) -/

/-- C7: the text normalizer is idempotent — normalizing already
normalized text returns the same text.  The normalizer replaces
non-breaking spaces with ordinary spaces, collapses runs of horizontal
whitespace to a single space, and trims leading and trailing
whitespace, exactly as the source function does. -/
theorem clean_idempotent (s : String) : clean (clean s) = clean s := by
  unfold clean
  have hdata : (String.mk (pyStrip (collapse (replaceNbsp s.data)))).data
      = pyStrip (collapse (replaceNbsp s.data)) := rfl
  rw [hdata]
  set T := pyStrip (collapse (replaceNbsp s.data)) with hT
  have h1 : replaceNbsp T = T := by
    apply replaceNbsp_id
    intro hmem
    rcases mem_collapseAux (mem_pyStrip hmem) with h | h
    · exact absurd h (by decide)
    · exact nbsp_not_mem_replaceNbsp _ h
  rw [h1]
  have ht : noTab T = true := by
    apply noTab_of_mem
    intro a ha
    exact noTab_mem (noTab_collapseAux false (replaceNbsp s.data)) (mem_pyStrip ha)
  have hs : noSS T = true := noSS_pyStrip (noSS_collapseAux false (replaceNbsp s.data))
  have h2 : collapse T = T := collapse_id ht hs
  unfold collapse at h2
  unfold collapse
  rw [h2]
  rw [pyStrip_pyStrip]

/-! ## Totality and values of the numeric parser (claim C8) -/

/-- C8: the numeric parser never propagates an error: it strips comma
thousands separators and parses as a float, so the string 12,345.50
yields the value 12345.50; on any string the float constructor rejects
(such as abc) and on empty input it returns zero. -/
theorem parseIndianNumber_never_fails :
    parseIndianNumber "12,345.50" = PyFloat.finite (12345.5 : ℚ) ∧
    parseIndianNumber "abc" = PyFloat.finite 0 ∧
    parseIndianNumber "" = PyFloat.finite 0 ∧
    ∀ s : String, pyFloatOfList (removeCommas (pyStrip s.data)) = none →
      parseIndianNumber s = PyFloat.finite 0 := by
  refine ⟨?_, by decide, by decide, ?_⟩
  · have h1 : parseIndianNumber "12,345.50"
        = PyFloat.finite ((12345 : ℚ) + (50 : ℚ) / (10 : ℚ) ^ (2 : ℕ)) := rfl
    rw [h1]
    norm_num
  intro s h
  unfold parseIndianNumber
  by_cases he : s.data.isEmpty = true
  · simp [he]
  · simp [he, h]

/-- Witness for C8: the general failure clause applied to the concrete
input abc. -/
theorem parseIndianNumber_never_fails_witness :
    parseIndianNumber "abc" = PyFloat.finite 0 :=
  parseIndianNumber_never_fails.2.2.2 "abc" (by decide)

/-! ## Date parsing (claim C2) -/

/-- C2: the three spellings 2024-01-15, 15-Jan-24 and 15/01/2024 all
parse to the calendar date 15 January 2024, and every input that
matches none of the five formats is returned as the stripped original
string, never an error. -/
theorem parseDate_formats :
    parseDate "2024-01-15" = DateOrStr.date 2024 1 15 ∧
    parseDate "15-Jan-24" = DateOrStr.date 2024 1 15 ∧
    parseDate "15/01/2024" = DateOrStr.date 2024 1 15 ∧
    ∀ s : String, (∀ f ∈ dateFormats, strptime f (pyStrip s.data) = none) →
      parseDate s = DateOrStr.str (String.mk (pyStrip s.data)) := by
  refine ⟨by decide, by decide, by decide, ?_⟩
  intro s h
  unfold parseDate
  have hn : dateFormats.findSome? (fun f => strptime f (pyStrip s.data)) = none := by
    rw [List.findSome?_eq_none_iff]
    exact h
  rw [hn]

/-- Witness for C2: the fallback clause applied to the concrete
input hello, which matches no format. -/
theorem parseDate_formats_witness :
    parseDate "hello" = DateOrStr.str "hello" :=
  parseDate_formats.2.2.2 "hello" (by decide)

/-! ## Registration number matchers (claim C1) -/

lemma matchesClasses_iff (qs : List (Char → Bool)) (l : List Char) :
    matchesClasses qs l = true ↔
      (l.length = qs.length ∧ ∀ i, i < qs.length →
        (qs.getD i (fun _ => false)) (l.getD i ' ') = true) := by
  induction qs generalizing l with
  | nil =>
      cases l with
      | nil => simp [matchesClasses]
      | cons c cs => simp [matchesClasses]
  | cons q qs ih =>
      cases l with
      | nil => simp [matchesClasses]
      | cons c cs =>
          rw [show matchesClasses (q :: qs) (c :: cs)
              = (q c && matchesClasses qs cs) from rfl]
          rw [Bool.and_eq_true, ih]
          constructor
          · rintro ⟨hq, hlen, hall⟩
            refine ⟨by simp [hlen], ?_⟩
            intro i hi
            cases i with
            | zero => simpa using hq
            | succ j =>
                have := hall j (by simp at hi; omega)
                simpa using this
          · rintro ⟨hlen, hall⟩
            refine ⟨by simpa using hall 0 (by simp), ?_, ?_⟩
            · simp at hlen
              exact hlen
            · intro j hj
              have := hall (j + 1) (by simp; omega)
              simpa using this

lemma uniqueKeep_subset {g : String} :
    ∀ (acc l : List String), g ∈ uniqueKeep acc l → g ∈ acc ∨ g ∈ l := by
  intro acc l
  induction l generalizing acc with
  | nil =>
      intro h
      exact Or.inl h
  | cons x r ih =>
      intro h
      unfold uniqueKeep at h
      by_cases hx : x ∈ acc
      · rw [if_pos hx] at h
        rcases ih _ h with h1 | h1
        · exact Or.inl h1
        · exact Or.inr (List.mem_cons_of_mem x h1)
      · rw [if_neg hx] at h
        rcases ih _ h with h1 | h1
        · rcases List.mem_append.mp h1 with h2 | h2
          · exact Or.inl h2
          · simp at h2
            exact Or.inr (by simp [h2])
        · exact Or.inr (List.mem_cons_of_mem x h1)

lemma findAllUniqueGstns_shape {text g : String}
    (h : g ∈ findAllUniqueGstns text) : gstnShape g.data = true := by
  unfold findAllUniqueGstns at h
  rcases uniqueKeep_subset _ _ h with h1 | h1
  · exact absurd h1 (List.not_mem_nil g)
  · rcases List.mem_map.mp h1 with ⟨t, ht, rfl⟩
    have := List.of_mem_filter ht
    simpa using this

lemma takeClasses_matches :
    ∀ (qs : List (Char → Bool)) (l g rest : List Char),
      takeClasses qs l = some (g, rest) → matchesClasses qs g = true := by
  intro qs
  induction qs with
  | nil =>
      intro l g rest h
      unfold takeClasses at h
      simp at h
      rw [h.1]
      rfl
  | cons q qs ih =>
      intro l g rest h
      cases l with
      | nil => simp [takeClasses] at h
      | cons c cs =>
          unfold takeClasses at h
          by_cases hq : q c = true
          · rw [if_pos hq] at h
            cases htc : takeClasses qs cs with
            | none => rw [htc] at h; simp at h
            | some p =>
                obtain ⟨p1, p2⟩ := p
                rw [htc] at h
                simp at h
                rw [show g = c :: p1 from h.1.symm]
                rw [show matchesClasses (q :: qs) (c :: p1)
                    = (q c && matchesClasses qs p1) from rfl]
                rw [Bool.and_eq_true]
                exact ⟨hq, ih cs p1 p2 htc⟩
          · rw [if_neg hq] at h
            simp at h

lemma afterLabelTail_shape {l g : List Char}
    (h : afterLabelTail l = some g) : gstnShapeCI g = true := by
  unfold afterLabelTail at h
  cases htc : takeClasses gstnClassesCI (afterLabelDrop l) with
  | none => rw [htc] at h; simp at h
  | some p =>
      obtain ⟨p1, p2⟩ := p
      rw [htc] at h
      simp at h
      rw [show g = p1 from h.symm]
      exact takeClasses_matches _ _ _ _ htc

lemma searchLabelStep_shape {label l g : List Char}
    (h : searchLabelStep label l = some g) : gstnShapeCI g = true := by
  unfold searchLabelStep at h
  cases hm : ciMatchDrop label l with
  | some rest =>
      rw [hm] at h
      exact afterLabelTail_shape h
  | none => rw [hm] at h; simp at h

lemma searchLabel_shape :
    ∀ (label l g : List Char),
      searchLabel label l = some g → gstnShapeCI g = true := by
  intro label l
  induction l with
  | nil =>
      intro g h
      exact searchLabelStep_shape h
  | cons c t ih =>
      intro g h
      unfold searchLabel at h
      cases hs : searchLabelStep label (c :: t) with
      | some g2 =>
          rw [hs] at h
          simp at h
          rw [show g = g2 from h.symm]
          exact searchLabelStep_shape hs
      | none =>
          rw [hs] at h
          simp at h
          exact ih g h

lemma extractGstn_shape (text : String) :
    extractGstn text = "" ∨ gstnShapeCI (extractGstn text).data = true := by
  unfold extractGstn extractGstnWith
  cases hf : defaultGstnLabels.findSome?
      (fun lab => searchLabel lab.data text.data) with
  | none => exact Or.inl rfl
  | some g =>
      refine Or.inr ?_
      rcases List.exists_of_findSome?_eq_some hf with ⟨lab, _, hsl⟩
      have := searchLabel_shape lab.data text.data g hsl
      simpa using this

/-- C1 counterexample: the label-based extractor accepts a candidate
that differs from the required character classes (it has lowercase
letters in the letter positions), because the IGNORECASE flag of its
compiled pattern also applies to the character classes.  The string it
returns fails the case-sensitive structural shape. -/
theorem extractGstn_lowercase_counterexample :
    extractGstn "GSTIN : 29abcde1234f1z5" = "29abcde1234f1z5" ∧
    gstnShape "29abcde1234f1z5".data = false := by
  constructor
  · decide
  · decide

/-- C1 as amended: the case-sensitive structural validator (the
module-level pattern) accepts exactly the fifteen-character strings of
the stated shape, every string produced by the whole-text scan matches
that shape, and the label-based extractor returns either the empty
string or a candidate matching the shape case-insensitively (lowercase
letters are also accepted there, since IGNORECASE applies to its
character classes). -/
theorem gstn_matchers_amended :
    (∀ l : List Char, gstnShape l = true ↔ specGstnShape l) ∧
    (∀ text g : String, g ∈ findAllUniqueGstns text → gstnShape g.data = true) ∧
    (∀ text : String,
      extractGstn text = "" ∨ gstnShapeCI (extractGstn text).data = true) := by
  refine ⟨?_, ?_, ?_⟩
  · intro l
    rw [gstnShape, matchesClasses_iff]
    rw [show gstnClasses.length = 15 from rfl]
    unfold specGstnShape
    constructor
    · rintro ⟨h15, hall⟩
      refine ⟨h15, ?_, ?_, ?_, ?_, ?_, ?_, ?_⟩
      · intro i hi
        interval_cases i
        · exact hall 0 (by omega)
        · exact hall 1 (by omega)
      · intro i hi1 hi2
        interval_cases i
        · exact hall 2 (by omega)
        · exact hall 3 (by omega)
        · exact hall 4 (by omega)
        · exact hall 5 (by omega)
        · exact hall 6 (by omega)
      · intro i hi1 hi2
        interval_cases i
        · exact hall 7 (by omega)
        · exact hall 8 (by omega)
        · exact hall 9 (by omega)
        · exact hall 10 (by omega)
      · exact hall 11 (by omega)
      · have h12 : alnumUClass (l.getD 12 ' ') = true := hall 12 (by omega)
        simpa [alnumUClass, Bool.or_eq_true] using h12
      · exact hall 13 (by omega)
      · have h14 : alnumUClass (l.getD 14 ' ') = true := hall 14 (by omega)
        simpa [alnumUClass, Bool.or_eq_true] using h14
    · rintro ⟨h15, h1, h2, h3, h4, h5, h6, h7⟩
      refine ⟨h15, ?_⟩
      intro i hi
      interval_cases i
      · exact h1 0 (by omega)
      · exact h1 1 (by omega)
      · exact h2 2 (by omega) (by omega)
      · exact h2 3 (by omega) (by omega)
      · exact h2 4 (by omega) (by omega)
      · exact h2 5 (by omega) (by omega)
      · exact h2 6 (by omega) (by omega)
      · exact h3 7 (by omega) (by omega)
      · exact h3 8 (by omega) (by omega)
      · exact h3 9 (by omega) (by omega)
      · exact h3 10 (by omega) (by omega)
      · exact h4
      · show alnumUClass (l.getD 12 ' ') = true
        unfold alnumUClass
        rw [Bool.or_eq_true]
        exact h5
      · exact h6
      · show alnumUClass (l.getD 14 ' ') = true
        unfold alnumUClass
        rw [Bool.or_eq_true]
        exact h7
  · intro text g h
    exact findAllUniqueGstns_shape h
  · intro text
    exact extractGstn_shape text

/-- Witness for the amended C1: a concrete valid registration number
accepted by the validator and by the whole-text scan, and a concrete
extraction through a label. -/
theorem gstn_matchers_amended_witness :
    specGstnShape "29ABCDE1234F1Z5".data ∧
    gstnShape "29ABCDE1234F1Z5".data = true ∧
    gstnShapeCI (extractGstn "GSTIN: 29ABCDE1234F1Z5").data = true := by
  refine ⟨?_, ?_, ?_⟩
  · exact (gstn_matchers_amended.1 "29ABCDE1234F1Z5".data).mp (by decide)
  · have h := gstn_matchers_amended.2.1 "x 29ABCDE1234F1Z5 y" "29ABCDE1234F1Z5"
      (by decide)
    exact h
  · have h := gstn_matchers_amended.2.2 "GSTIN: 29ABCDE1234F1Z5"
    rcases h with h | h
    · exact absurd h (by decide)
    · exact h

/-! ## Company classification (claims C6 and C10) -/

/-- C6: the classifier returns the first company, in the fixed pattern
order, whose signature matches the full text; it returns none exactly
when no signature matches; and an unrecognized document contributes
zero records to the batch. -/
theorem detectCompany_first_match :
    (∀ t : String, detectCompany t =
      (if mogliSig t then some "Mogli Labs"
       else if sdiSig t then some "SDI"
       else if jllSig t then some "JLL" else none)) ∧
    (∀ t : String, detectCompany t = none ↔
      (mogliSig t = false ∧ sdiSig t = false ∧ jllSig t = false)) ∧
    (∀ (α : Type) (extractors : String → List String → List α)
        (pages : List String),
      detectCompany (String.intercalate "\n" pages) = none →
      processPdf extractors pages = (none, [])) := by
  refine ⟨?_, ?_, ?_⟩
  · intro t
    by_cases h1 : mogliSig t <;> by_cases h2 : sdiSig t <;>
      by_cases h3 : jllSig t <;>
      simp [detectCompany, companyPatterns, List.find?, h1, h2, h3]
  · intro t
    by_cases h1 : mogliSig t <;> by_cases h2 : sdiSig t <;>
      by_cases h3 : jllSig t <;>
      simp [detectCompany, companyPatterns, List.find?, h1, h2, h3]
  · intro α extractors pages h
    unfold processPdf
    rw [h]

/-- Witness for C6: a concrete document matching no signature is
classified as none and yields zero records. -/
theorem detectCompany_first_match_witness :
    processPdf (fun _ _ => ([] : List Nat)) ["some unrelated text"]
      = (none, []) :=
  detectCompany_first_match.2.2 Nat (fun _ _ => [])
    ["some unrelated text"] (by decide)

/-- C10: overlaps are resolved by the fixed iteration order of the
pattern dictionary; in particular a text matching both the first and
the second signature is classified as the first company. -/
theorem detectCompany_order :
    (∀ t : String, mogliSig t = true → detectCompany t = some "Mogli Labs") ∧
    (∀ t : String, mogliSig t = false → sdiSig t = true →
      detectCompany t = some "SDI") ∧
    (∀ t : String, mogliSig t = false → sdiSig t = false →
      jllSig t = true → detectCompany t = some "JLL") ∧
    (∀ t : String, mogliSig t = true → sdiSig t = true →
      detectCompany t = some "Mogli Labs") := by
  refine ⟨?_, ?_, ?_, ?_⟩
  · intro t h1
    simp [detectCompany, companyPatterns, List.find?, h1]
  · intro t h1 h2
    simp [detectCompany, companyPatterns, List.find?, h1, h2]
  · intro t h1 h2 h3
    simp [detectCompany, companyPatterns, List.find?, h1, h2, h3]
  · intro t h1 _
    simp [detectCompany, companyPatterns, List.find?, h1]

/-- Witness for C10: a concrete text containing both the first and the
second signature is classified as the first company. -/
theorem detectCompany_order_witness :
    detectCompany "Mogli Labs and SDI Business Services" = some "Mogli Labs" :=
  detectCompany_order.2.2.2 "Mogli Labs and SDI Business Services"
    (by decide) (by decide)

/-! ## SDI tax reconciliation (claims C3, C4, C9) -/

/-- C3: when the summary block matched, every record of the document
batch has its two percentage fields overwritten with the summary
rates, its tax amounts recomputed as the taxable total times the
corresponding rate, and its amount recomputed as the taxable total
plus all tax amounts, everything else unchanged; when the summary
block is absent, every record is left exactly as it was. -/
theorem sdiReconcile_overrides :
    (∀ (cd sd : ℕ) (rows : List SDIRow),
      sdiReconcile (some (cd, sd)) rows = rows.map (fun r =>
        { r with
          cgstPct := (cd : ℚ) / 100
          sgstPct := (sd : ℚ) / 100
          cgstAmt := r.taxableTotal * ((cd : ℚ) / 100)
          sgstAmt := r.taxableTotal * ((sd : ℚ) / 100)
          amount := r.taxableTotal + r.igstAmt +
            r.taxableTotal * ((cd : ℚ) / 100) +
            r.taxableTotal * ((sd : ℚ) / 100) })) ∧
    (∀ rows : List SDIRow, sdiReconcile none rows = rows) :=
  ⟨fun _ _ _ => rfl, fun _ => rfl⟩

/-- C4: the reconciliation pass is idempotent — the second application
finds the same summary outcome on the unchanged last page and
recomputes the same values from the unchanged taxable totals. -/
theorem sdiReconcile_idempotent (summary : Option (ℕ × ℕ))
    (rows : List SDIRow) :
    sdiReconcile summary (sdiReconcile summary rows)
      = sdiReconcile summary rows := by
  cases summary with
  | none => rfl
  | some p =>
      obtain ⟨cd, sd⟩ := p
      show (rows.map (sdiOverride ((cd : ℚ) / 100) ((sd : ℚ) / 100))).map
          (sdiOverride ((cd : ℚ) / 100) ((sd : ℚ) / 100))
        = rows.map (sdiOverride ((cd : ℚ) / 100) ((sd : ℚ) / 100))
      rw [List.map_map]
      have h : sdiOverride ((cd : ℚ) / 100) ((sd : ℚ) / 100) ∘
          sdiOverride ((cd : ℚ) / 100) ((sd : ℚ) / 100)
          = sdiOverride ((cd : ℚ) / 100) ((sd : ℚ) / 100) :=
        funext (fun _ => rfl)
      rw [h]

/-- C9: every SDI row satisfies amount equals taxable total plus the
three tax amounts, both as first built with the provisional rates and
after the summary override. -/
theorem sdiAmount_invariant :
    (∀ (invoice_type vendor_name vendor_gstn buyer_name buyer_gstn
        invoice_no : String) (invoice_date : DateOrStr)
        (description hsn : String) (qty rate : ℚ) (per : String),
      (mkSDIRow invoice_type vendor_name vendor_gstn buyer_name buyer_gstn
        invoice_no invoice_date description hsn qty rate per).amount =
      (mkSDIRow invoice_type vendor_name vendor_gstn buyer_name buyer_gstn
        invoice_no invoice_date description hsn qty rate per).taxableTotal +
      (mkSDIRow invoice_type vendor_name vendor_gstn buyer_name buyer_gstn
        invoice_no invoice_date description hsn qty rate per).igstAmt +
      (mkSDIRow invoice_type vendor_name vendor_gstn buyer_name buyer_gstn
        invoice_no invoice_date description hsn qty rate per).cgstAmt +
      (mkSDIRow invoice_type vendor_name vendor_gstn buyer_name buyer_gstn
        invoice_no invoice_date description hsn qty rate per).sgstAmt) ∧
    (∀ (cgstRate sgstRate : ℚ) (r : SDIRow),
      (sdiOverride cgstRate sgstRate r).amount =
      (sdiOverride cgstRate sgstRate r).taxableTotal +
      (sdiOverride cgstRate sgstRate r).igstAmt +
      (sdiOverride cgstRate sgstRate r).cgstAmt +
      (sdiOverride cgstRate sgstRate r).sgstAmt) :=
  ⟨fun _ _ _ _ _ _ _ _ _ _ _ _ => rfl, fun _ _ _ => rfl⟩

/-! ## Schema coverage of the row dictionaries (claim C5) -/

/-- C5: every row dictionary built by the three extractors carries a
key for every column of the corresponding fixed schema, whatever the
extracted values are, so reading any schema column from a record never
finds a missing key; fields whose extraction failed are present under
the same keys with their explicit default values. -/
theorem rows_cover_columns :
    (∀ (a1 a2 a3 a4 a5 a6 a7 : String) (dt : DateOrStr) (a8 a9 : String)
        (q1 : ℚ) (a10 : String) (q2 q3 q4 q5 q6 q7 q8 : ℚ) (c : String),
      c ∈ MOGLI_COLUMNS →
      ((mogliRowDict a1 a2 a3 a4 a5 a6 a7 dt a8 a9 q1 a10 q2 q3 q4 q5 q6
        q7 q8).lookup c).isSome = true) ∧
    (∀ (r : SDIRow) (c : String),
      c ∈ SDI_COLUMNS → ((sdiRowDict r).lookup c).isSome = true) ∧
    (∀ (a1 a2 a3 a4 a5 a6 a7 : String) (dt : DateOrStr) (a8 a9 : String)
        (q1 q2 q3 q4 q5 q6 : ℚ) (a10 a11 : String) (c : String),
      c ∈ JLL_COLUMNS →
      ((jllRowDict a1 a2 a3 a4 a5 a6 a7 dt a8 a9 q1 q2 q3 q4 q5 q6 a10
        a11).lookup c).isSome = true) := by
  refine ⟨?_, ?_, ?_⟩
  · intro a1 a2 a3 a4 a5 a6 a7 dt a8 a9 q1 a10 q2 q3 q4 q5 q6 q7 q8 c hc
    fin_cases hc <;> rfl
  · intro r c hc
    fin_cases hc <;> rfl
  · intro a1 a2 a3 a4 a5 a6 a7 dt a8 a9 q1 q2 q3 q4 q5 q6 a10 a11 c hc
    fin_cases hc <;> rfl

/-- Witness for C5: the column with the embedded spaces is readable
from a concrete row of each shape. -/
theorem rows_cover_columns_witness :
    ((mogliRowDict "" "" "" "" "" "" "" (DateOrStr.str "") "" "" 0 "" 0 0 0
      0 0 0 0).lookup "IGST    %").isSome = true ∧
    ((sdiRowDict (mkSDIRow "" "" "" "" "" "" (DateOrStr.str "") "" "" 0 0
      "")).lookup "IGST    %").isSome = true ∧
    ((jllRowDict "" "" "" "" "" "" "" (DateOrStr.str "") "" "" 0 0 0 0 0 0
      "" "").lookup "IGST    %").isSome = true :=
  ⟨rows_cover_columns.1 "" "" "" "" "" "" "" (DateOrStr.str "") "" "" 0 ""
      0 0 0 0 0 0 0 "IGST    %" (by decide),
   rows_cover_columns.2.1 (mkSDIRow "" "" "" "" "" "" (DateOrStr.str "")
      "" "" 0 0 "") "IGST    %" (by decide),
   rows_cover_columns.2.2 "" "" "" "" "" "" "" (DateOrStr.str "") "" "" 0
      0 0 0 0 0 "" "" "IGST    %" (by decide)⟩

end PdfExtract
